import Mathlib

/-!
Shallow embedding of the client-side core of the fhevoting repository:
the FHEVM encryption adapter (src/src/lib/fhevm.ts) and the voting
contract client (src/src/lib/contract.ts).  JavaScript numbers that hold
byte values are modelled as Nat, general integers as Int, thrown errors
as Except with String messages, and the remote ledger, the fhevmjs
backend and the browser wallet as explicit oracle inputs.
-/

namespace FHEVoting

/-- Error value standing for a thrown JavaScript error; carried as an opaque
message so a rethrown error can be compared with the original. -/
abbrev Err := String

/-- JavaScript ToUint8 conversion applied when an integer is stored into a
Uint8Array slot: the mathematical residue modulo 256, landing in [0,256). -/
def toUint8 (x : Int) : Nat := (x % 256).toNat

/-- The JavaScript remainder operator on integers: truncated remainder,
taking the sign of the dividend (Int.tmod). -/
def jsRem (a b : Int) : Int := a.tmod b

/-- FHEVMClient.simulateEncryption (src/src/lib/fhevm.ts lines 137-152):
fills two 32-byte arrays with data[i] = (value*7 + i*13) % 256 and
proof[i] = (value*11 + i*17) % 256, each store passing through ToUint8.
The unused seed string of line 141 is omitted: it has no effect. -/
def simulateEncryption (value : Int) : List Nat × List Nat :=
  ((List.range 32).map (fun (i : Nat) => toUint8 (jsRem (value * 7 + (i : Int) * 13) 256)),
   (List.range 32).map (fun (i : Nat) => toUint8 (jsRem (value * 11 + (i : Int) * 17) 256)))

/-- The JavaScript remainder followed by ToUint8 agrees with the
mathematical residue modulo 256. -/
theorem toUint8_jsRem (a : Int) : (toUint8 (jsRem a 256) : Int) = a % 256 := by
  have h := Int.tdiv_add_tmod a 256
  simp only [toUint8, jsRem]
  generalize hq : a.tdiv 256 = q at h
  generalize hm : a.tmod 256 = m at h ⊢
  omega

/-- Claim C1: for every integer value v, the simulated encryption path
produces exactly two 32-byte sequences data and proof with
data[i] = (v*7 + i*13) mod 256 and proof[i] = (v*11 + i*17) mod 256 for
every i in [0,32).  Determinism in v alone is inherent: simulateEncryption
is a pure function of its single argument v. -/
theorem simulateEncryption_formula (v : Int) (i : Nat) (h : i < 32) :
    (simulateEncryption v).1.length = 32 ∧ (simulateEncryption v).2.length = 32 ∧
    Option.map (fun (b : Nat) => (b : Int)) (simulateEncryption v).1[i]? =
      some ((v * 7 + i * 13) % 256) ∧
    Option.map (fun (b : Nat) => (b : Int)) (simulateEncryption v).2[i]? =
      some ((v * 11 + i * 17) % 256) := by
  refine ⟨?_, ?_, ?_, ?_⟩
  · unfold simulateEncryption
    rw [List.length_map, List.length_range]
  · unfold simulateEncryption
    rw [List.length_map, List.length_range]
  · unfold simulateEncryption
    rw [List.getElem?_map, List.getElem?_range h]
    have h2 : (0:Int) ≤ (v * 7 + i * 13) % 256 := Int.emod_nonneg _ (by norm_num)
    simp only [Option.map_map, Option.map_some, Function.comp, toUint8_jsRem]
    exact congrArg some (toUint8_jsRem _ ▸ rfl)
  · unfold simulateEncryption
    rw [List.getElem?_map, List.getElem?_range h]
    simp only [Option.map_map, Option.map_some, Function.comp]
    exact congrArg some (toUint8_jsRem _)

/-- Witness for C1 at v = 5, i = 3. -/
theorem simulateEncryption_formula_witness :
    (simulateEncryption 5).1.length = 32 ∧ (simulateEncryption 5).2.length = 32 ∧
    Option.map (fun (b : Nat) => (b : Int)) (simulateEncryption 5).1[3]? =
      some ((5 * 7 + 3 * 13) % 256) ∧
    Option.map (fun (b : Nat) => (b : Int)) (simulateEncryption 5).2[3]? =
      some ((5 * 11 + 3 * 17) % 256) :=
  simulateEncryption_formula 5 3 (by decide)

/-! ## Byte/Hex codec (src/src/lib/fhevm.ts lines 181-208) -/

/-- JavaScript Number.prototype.toString(16) for a byte value below 256:
one lowercase hex digit when the value is below 16, else two. -/
def jsToString16 (b : Nat) : List Char :=
  if b < 16 then [Nat.digitChar b]
  else [Nat.digitChar (b / 16), Nat.digitChar (b % 16)]

/-- JavaScript String.prototype.padStart(2, zero): left-pads with the digit
zero until the length is at least 2. -/
def padStart2 (s : List Char) : List Char :=
  List.replicate (2 - s.length) '0' ++ s

/-- FHEVMClient.toHexString (lines 181-192): the marker 0x followed by each
byte as a zero-padded 2-character lowercase hex chunk, joined in order.
Strings are modelled as lists of characters. -/
def toHexString (bytes : List Nat) : List Char :=
  '0' :: 'x' :: (bytes.map (fun b => padStart2 (jsToString16 b))).flatten

/-- The numeric value of one hex digit character, case-insensitive;
none when the character is not a hex digit. -/
def hexDigitVal (c : Char) : Option Nat :=
  if '0' ≤ c ∧ c ≤ '9' then some (c.toNat - Char.toNat '0')
  else if 'a' ≤ c ∧ c ≤ 'f' then some (c.toNat - Char.toNat 'a' + 10)
  else if 'A' ≤ c ∧ c ≤ 'F' then some (c.toNat - Char.toNat 'A' + 10)
  else none

/-- JavaScript parseInt(chunk, 16) of a 2-character chunk, as stored by the
Uint8Array write of line 199: parseInt takes the longest hex-digit prefix,
and a NaN from an empty prefix is stored as 0 by ToUint8.  The whitespace
and sign handling of parseInt is omitted: the chunks this program parses
come from hex strings and never start with whitespace or a sign. -/
def parseHexPair (c1 c2 : Char) : Nat :=
  match hexDigitVal c1 with
  | none => 0
  | some a =>
    match hexDigitVal c2 with
    | none => a
    | some b => 16 * a + b

/-- The parsing loop of lines 198-200, one byte per 2-character chunk.
A dangling final character is dropped: with an odd clean length 2k+1 the
Uint8Array has floor(length/2) = k slots and the final iteration writes
index k, which a typed array silently discards as out of range. -/
def parseHexPairs : List Char → List Nat
  | c1 :: c2 :: rest => parseHexPair c1 c2 :: parseHexPairs rest
  | _ => []

/-- The startsWith(0x) strip of line 196. -/
def strip0x (hex : List Char) : List Char :=
  match hex with
  | '0' :: 'x' :: rest => rest
  | l => l

/-- FHEVMClient.fromHexString (lines 195-208): strip the 0x marker when
present, then parse consecutive 2-character chunks. -/
def fromHexString (hex : List Char) : List Nat :=
  parseHexPairs (strip0x hex)

/-- Each of the sixteen hex digit characters parses back to its value. -/
theorem hexDigitVal_digitChar : ∀ b : Nat, b < 16 →
    hexDigitVal (Nat.digitChar b) = some b := by decide

/-- One encoded byte at the head of the chunk stream parses back to itself. -/
theorem parseHexPairs_chunk (b : Nat) (hb : b < 256) (rest : List Char) :
    parseHexPairs (padStart2 (jsToString16 b) ++ rest) = b :: parseHexPairs rest := by
  have h0 : hexDigitVal '0' = some 0 := by decide
  by_cases h16 : b < 16
  · have hd := hexDigitVal_digitChar b h16
    simp [jsToString16, padStart2, h16, parseHexPairs, parseHexPair, h0, hd]
  · have h1 : b / 16 < 16 := Nat.div_lt_of_lt_mul (by omega)
    have h2 : b % 16 < 16 := Nat.mod_lt _ (by omega)
    have hd1 := hexDigitVal_digitChar _ h1
    have hd2 := hexDigitVal_digitChar _ h2
    simp [jsToString16, padStart2, h16, parseHexPairs, parseHexPair, hd1, hd2]
    omega

/-- Concatenated 2-character chunks parse back to the original bytes. -/
theorem parseHexPairs_flatten (bytes : List Nat) (hb : ∀ b ∈ bytes, b < 256) :
    parseHexPairs ((bytes.map (fun b => padStart2 (jsToString16 b))).flatten) = bytes := by
  induction bytes with
  | nil => simp [parseHexPairs]
  | cons b bs ih =>
    have hb0 : b < 256 := hb b (List.mem_cons_self b bs)
    have hbs : ∀ x ∈ bs, x < 256 := fun x hx => hb x (List.mem_cons_of_mem b hx)
    simp only [List.map_cons, List.flatten_cons, parseHexPairs_chunk b hb0]
    exact congrArg (b :: ·) (ih hbs)

/-- Claim C2: for every byte sequence b, fromHexString (toHexString b) = b;
toHexString prefixes the fixed 2-character marker 0x and fromHexString
strips it before decoding.  The hypothesis records that Uint8Array entries
are bytes below 256. -/
theorem fromHex_toHex_roundtrip (bytes : List Nat) (hb : ∀ b ∈ bytes, b < 256) :
    fromHexString (toHexString bytes) = bytes := by
  have hstrip : strip0x (toHexString bytes) =
      (bytes.map (fun b => padStart2 (jsToString16 b))).flatten := by
    simp [toHexString, strip0x]
  rw [fromHexString, hstrip]
  exact parseHexPairs_flatten bytes hb

/-- Witness for C2 on the concrete byte sequence [0, 10, 171, 255]. -/
theorem fromHex_toHex_roundtrip_witness :
    fromHexString (toHexString [0, 10, 171, 255]) = [0, 10, 171, 255] :=
  fromHex_toHex_roundtrip [0, 10, 171, 255] (by decide)

/-! ## FHEVMClient state and the encryption operations
    (src/src/lib/fhevm.ts lines 19-23 and 110-166) -/

/-- The result of a call to the fhevmjs backend handle: instance.encrypt32
either throws (none) or yields a data array and an optionally missing
proof array (the source guards encrypted.proof with a default of an empty
array on line 129). -/
structure BackendResult where
  data : List Nat
  proofBytes : Option (List Nat)

/-- The fhevmjs backend handle of the field FHEVMClient.instance, reduced
to its one consumed capability: encrypt32, which may throw (none). -/
def Backend := Int → Option BackendResult

/-- The mutable fields of FHEVMClient (lines 20-23).  The provider field is
omitted: no claim observes it.  The field named instance in the source is
called inst here because instance is a Lean keyword. -/
structure ClientState where
  inst : Option Backend
  isReady : Bool
  publicKey : Option (List Char)

/-- A ciphertext as returned by encrypt32: data plus proof bytes. -/
structure Ciphertext where
  data : List Nat
  proofBytes : List Nat

/-- The two simulated 32-byte arrays packed as a Ciphertext. -/
def simCipher (v : Int) : Ciphertext :=
  ⟨(simulateEncryption v).1, (simulateEncryption v).2⟩

/-- FHEVMClient.encrypt32 (lines 110-135): when the adapter is not ready
or has no backend handle, or when the backend call throws, fall back to the
simulated encryption; the state fields are never written. -/
def encrypt32 (st : ClientState) (value : Int) : Ciphertext × ClientState :=
  match st.inst with
  | none => (simCipher value, st)
  | some be =>
    if st.isReady then
      match be value with
      | some r => (⟨r.data, r.proofBytes.getD []⟩, st)
      | none => (simCipher value, st)
    else (simCipher value, st)

/-- FHEVMClient.encryptVote (lines 154-166): throws unless the vote is 0
or 1, then delegates to encrypt32 and repacks the fields. -/
def encryptVote (st : ClientState) (vote : Int) : Except Err (Ciphertext × ClientState) :=
  if vote ≠ 0 ∧ vote ≠ 1 then .error "Vote must be 0 or 1"
  else
    let r := encrypt32 st vote
    .ok (⟨(r.1).data, (r.1).proofBytes⟩, r.2)

/-- encrypt32 never writes the adapter state. -/
theorem encrypt32_state (st : ClientState) (value : Int) :
    (encrypt32 st value).2 = st := by
  unfold encrypt32
  cases h : st.inst with
  | none => rfl
  | some be =>
    cases hr : st.isReady
    · simp [hr]
    · simp only [hr, if_true]
      cases be value <;> rfl

/-- Claim C3: encryptVote raises exactly when the choice is outside {0,1};
for 0 and 1 it succeeds with the encrypted ballot and leaves the adapter
state unchanged. -/
theorem encryptVote_domain (st : ClientState) (vote : Int) :
    ((∃ e, encryptVote st vote = .error e) ↔ (vote ≠ 0 ∧ vote ≠ 1)) ∧
    (vote = 0 ∨ vote = 1 →
      encryptVote st vote =
        .ok (⟨(encrypt32 st vote).1.data, (encrypt32 st vote).1.proofBytes⟩, st)) := by
  constructor
  · constructor
    · rintro ⟨e, he⟩
      by_contra hv
      rw [encryptVote, if_neg hv] at he
      exact Except.noConfusion he
    · intro hv
      exact ⟨"Vote must be 0 or 1", by rw [encryptVote, if_pos hv]⟩
  · intro hv
    have hne : ¬(vote ≠ 0 ∧ vote ≠ 1) := by
      rcases hv with h | h <;> simp [h]
    rw [encryptVote, if_neg hne]
    simp only []
    rw [encrypt32_state]

/-- Witness for C3 at vote = 1 (success leg) and vote = 2 (error leg), with
a degraded adapter state. -/
theorem encryptVote_domain_witness :
    (encryptVote ⟨none, false, none⟩ 1 =
      .ok (⟨(encrypt32 ⟨none, false, none⟩ 1).1.data,
            (encrypt32 ⟨none, false, none⟩ 1).1.proofBytes⟩, ⟨none, false, none⟩)) ∧
    (∃ e, encryptVote ⟨none, false, none⟩ 2 = .error e) :=
  ⟨(encryptVote_domain ⟨none, false, none⟩ 1).2 (Or.inr rfl),
   ((encryptVote_domain ⟨none, false, none⟩ 2).1).2 (by decide)⟩

/-- Claim C4: encrypt32 is total — it always returns a ciphertext and never
propagates an error.  When the adapter is not ready or lacks a backend handle
it returns the simulated result; when the backend call throws, the error is
caught and the simulated result returned; the state, including the ready
flag, is left unchanged in every case. -/
theorem encrypt32_total (st : ClientState) (v : Int) :
    (encrypt32 st v).2 = st ∧
    (st.isReady = false ∨ st.inst = none → (encrypt32 st v).1 = simCipher v) ∧
    (∀ be, st.inst = some be → st.isReady = true → be v = none →
      (encrypt32 st v).1 = simCipher v) := by
  refine ⟨encrypt32_state st v, ?_, ?_⟩
  · intro h
    unfold encrypt32
    cases hi : st.inst with
    | none => rfl
    | some be =>
      rcases h with h | h
      · simp [h]
      · rw [hi] at h
        exact absurd h (by simp)
  · intro be hbe hr hv
    unfold encrypt32
    rw [hbe]
    simp [hr, hv]

/-- Witness for C4 with a live backend whose encrypt32 call throws. -/
theorem encrypt32_total_witness :
    (encrypt32 ⟨some (fun _ => none), true, none⟩ 7).2 = ⟨some (fun _ => none), true, none⟩ ∧
    (encrypt32 ⟨some (fun _ => none), true, none⟩ 7).1 = simCipher 7 :=
  ⟨(encrypt32_total ⟨some (fun _ => none), true, none⟩ 7).1,
   (encrypt32_total ⟨some (fun _ => none), true, none⟩ 7).2.2 (fun _ => none) rfl rfl rfl⟩

/-! ## FHEVMClient.init (src/src/lib/fhevm.ts lines 25-108) -/

/-- The external effects init consumes, as oracle inputs:
the provider network query (which may throw), the gateway public-key fetch
(error = the fetch threw; ok none = a non-ok response; ok some = a key),
and fhevmjs createInstance keyed by the public key it is handed
(none = the import or the construction threw). -/
structure InitEnv where
  network : Except Err Int
  fetchKey : Except Err (Option (List Char))
  createBackend : List Char → Option Backend

/-- FHEVMClient.fetchPublicKey (lines 76-100): both a thrown fetch and a
non-ok response are swallowed and leave the key null; it never throws. -/
def fetchPublicKey (env : InitEnv) : Option (List Char) :=
  match env.fetchKey with
  | .ok (some k) => some k
  | .ok none => none
  | .error _ => none

/-- FHEVMClient.getDefaultPublicKey (lines 102-108): the fallback key
0x followed by 64 zero digits. -/
def getDefaultPublicKey : List Char := '0' :: 'x' :: List.replicate 64 '0'

/-- The publicKey argument handed to createInstance on line 57:
the fetched key, or the fallback key when the fetch left it null. -/
def initKeyArg (env : InitEnv) : List Char :=
  (fetchPublicKey env).getD getDefaultPublicKey

/-- FHEVMClient.init (lines 25-74).  The outer try contains the network
query; a throw there reaches the outer catch, which clears the ready flag
and rethrows (line 72).  A non-matching chain id only logs a warning
(lines 37-39).  The inner try contains the fhevmjs import and
createInstance; a throw there only clears the ready flag (lines 64-68).
The result pairs the final state with the error surfaced to the caller,
if any. -/
def init (st : ClientState) (env : InitEnv) : ClientState × Option Err :=
  match env.network with
  | .error e => ({ st with isReady := false }, some e)
  | .ok _chainId =>
    let st1 := { st with publicKey := fetchPublicKey env }
    match env.createBackend (initKeyArg env) with
    | some be => ({ st1 with inst := some be, isReady := true }, none)
    | none => ({ st1 with isReady := false }, none)

/-- Counterexample to C5 as stated: at the concrete input where the
provider network query throws, init rethrows that error to its caller
(line 72 of fhevm.ts) instead of swallowing it. -/
theorem init_network_error_surfaces :
    (init ⟨none, false, none⟩
      ⟨.error "network down", .ok none, fun _ => none⟩).2 = some "network down" := rfl

/-- Claim C5 (amended): when the initial network query itself throws, init
clears the ready flag and rethrows that error; in every other case init
never surfaces a failure — a public-key fetch failure is swallowed and the
fallback key is handed to the backend constructor, a backend construction
failure only clears the ready flag, and a non-matching network identity
(any chain id) still completes. -/
theorem init_failure_semantics (st : ClientState) (env : InitEnv) :
    (∀ e, env.network = .error e →
      (init st env).2 = some e ∧ (init st env).1.isReady = false) ∧
    (∀ c, env.network = .ok c →
      (init st env).2 = none ∧
      ((env.fetchKey = .ok none ∨ ∃ e, env.fetchKey = .error e) →
        initKeyArg env = getDefaultPublicKey) ∧
      (env.createBackend (initKeyArg env) = none → (init st env).1.isReady = false) ∧
      (∀ be, env.createBackend (initKeyArg env) = some be →
        (init st env).1.isReady = true ∧ (init st env).1.inst = some be)) := by
  constructor
  · intro e he
    simp [init, he]
  · intro c hc
    refine ⟨?_, ?_, ?_, ?_⟩
    · simp only [init, hc]
      cases hb : env.createBackend (initKeyArg env) <;> rfl
    · rintro (h | ⟨e, h⟩) <;> simp [initKeyArg, fetchPublicKey, h]
    · intro hb
      simp [init, hc, hb]
    · intro be hb
      simp [init, hc, hb]

/-- Witness for C5 (amended) at a concrete environment: the network query
answers chain id 1 (non-matching), the key fetch throws, and the backend
constructor throws — init completes without surfacing an error, hands the
fallback key to the constructor, and ends not ready. -/
theorem init_failure_semantics_witness :
    (init ⟨none, false, none⟩
        ⟨.ok 1, .error "fetch failed", fun _ => none⟩).2 = none ∧
    initKeyArg ⟨.ok 1, .error "fetch failed", fun _ => none⟩ = getDefaultPublicKey ∧
    (init ⟨none, false, none⟩
        ⟨.ok 1, .error "fetch failed", fun _ => none⟩).1.isReady = false := by
  have h := (init_failure_semantics ⟨none, false, none⟩
    ⟨.ok 1, .error "fetch failed", fun _ => none⟩).2 1 rfl
  exact ⟨h.1, h.2.1 (Or.inr ⟨"fetch failed", rfl⟩), h.2.2.1 rfl⟩

/-! ## VotingContract (src/src/lib/contract.ts) -/

/-- A transaction receipt as consumed by tx.wait(): only the status code
is observed (receipt.status === 1). -/
structure Receipt where
  status : Int

/-- The observable calls the client makes during a write operation:
the call into the vote encryptor and the remote contract methods. -/
inductive Event where
  | encryptVoteCall (value : Int)
  | remoteCastVote (proposalId optionIndex : Int) (encryptedVote inputProof : List Char)
  | remoteCreateProposal (title description : List Char)
      (options : List (List Char)) (duration : Int)
  | remoteRevealResults (proposalId : Int)
  | remoteAuthorizeVoter (voter : List Char)
  | remoteAuthorizeVoters (voters : List (List Char))
  deriving DecidableEq

/-- The mutable fields of VotingContract (lines 39-42): whether the
contract handle and the signer are non-null, the FHEVM-enabled flag, and
the embedded FHEVMClient state. -/
structure VCState where
  hasContract : Bool
  hasSigner : Bool
  isFHEVMEnabled : Bool
  fhevm : ClientState

/-- The outcome of one remote write: the contract method call (which may
throw in transport) and the finality wait tx.wait() (which may throw or
yield a receipt). -/
structure WriteEnv where
  send : Except Err Unit
  wait : Except Err Receipt

/-- The environment of one castVote call: the remote contract.castVote
write as a function of its four call arguments (so the first write and a
retry with different hex arguments can answer differently), the tx.wait
finality outcome, and the two ethers.randomBytes(32) draws used on the
fallback paths (lines 260-261 and 268-269). -/
structure CastVoteEnv where
  sendVote : Int → Int → List Char → List Char → Except Err Unit
  wait : Except Err Receipt
  randCipher : List Nat
  randProof : List Nat

/-- FHEVMClient.isInitialized (fhevm.ts lines 168-170):
isReady and a non-null instance. -/
def isInitialized (st : ClientState) : Bool := st.isReady && st.inst.isSome

/-- The shared tail of VotingContract.castVote (lines 273-278): await
finality on the obtained tx and map receipt status 1 to true.  The first
argument carries the outcome of the write that was supposed to produce the
tx: its throw, like a throw from the wait, reaches the outer catch and is
rethrown with its cause (lines 279-282). -/
def castVoteFinish (st : VCState) (env : CastVoteEnv)
    (sendResult : Except Err Unit) (events : List Event) :
    Except Err Bool × List Event × VCState :=
  match sendResult with
  | .error e => (.error e, events, st)
  | .ok _ =>
    match env.wait with
    | .error e => (.error e, events, st)
    | .ok r => (.ok (r.status == 1), events, st)

/-- VotingContract.castVote (lines 236-283): returns false at once when the
contract handle is null.  On the FHE branch (lines 244-263) the inner try
covers the whole block from encryptVote(1) through the FIRST remote
castVote write of line 255; a throw from that write is therefore caught by
the inner catch of lines 257-263, which discards the original cause and
issues a SECOND remote write with the two hexlified randomBytes draws.
The same catch also covers a throw from encryptVote itself (unreachable
for the constant vote 1, since encrypt32 is total), in which case only the
fallback write is issued.  Off the FHE branch (lines 264-271) the single
fallback write is issued.  Then tx.wait maps receipt status 1 to true, and
a throw from the wait or from the write that was to produce the tx is
rethrown (lines 279-282).  The result carries the outcome, the trace of
encryptor and remote calls in order, and the final state. -/
def castVote (st : VCState) (env : CastVoteEnv) (proposalId optionIndex : Int) :
    Except Err Bool × List Event × VCState :=
  if st.hasContract = false then (.ok false, [], st)
  else
    if st.isFHEVMEnabled && isInitialized st.fhevm then
      match encryptVote st.fhevm 1 with
      | .ok (c, _) =>
        match env.sendVote proposalId optionIndex (toHexString c.data)
            (toHexString c.proofBytes) with
        | .ok _ =>
          castVoteFinish st env (.ok ())
            [Event.encryptVoteCall 1,
             Event.remoteCastVote proposalId optionIndex (toHexString c.data)
               (toHexString c.proofBytes)]
        | .error _ =>
          castVoteFinish st env
            (env.sendVote proposalId optionIndex (toHexString env.randCipher)
              (toHexString env.randProof))
            [Event.encryptVoteCall 1,
             Event.remoteCastVote proposalId optionIndex (toHexString c.data)
               (toHexString c.proofBytes),
             Event.remoteCastVote proposalId optionIndex (toHexString env.randCipher)
               (toHexString env.randProof)]
      | .error _ =>
        castVoteFinish st env
          (env.sendVote proposalId optionIndex (toHexString env.randCipher)
            (toHexString env.randProof))
          [Event.encryptVoteCall 1,
           Event.remoteCastVote proposalId optionIndex (toHexString env.randCipher)
             (toHexString env.randProof)]
    else
      castVoteFinish st env
        (env.sendVote proposalId optionIndex (toHexString env.randCipher)
          (toHexString env.randProof))
        [Event.remoteCastVote proposalId optionIndex (toHexString env.randCipher)
           (toHexString env.randProof)]

/-- VotingContract.createProposal (lines 212-234): same write shape. -/
def createProposal (st : VCState) (env : WriteEnv) (title description : List Char)
    (options : List (List Char)) (duration : Int) : Except Err Bool × List Event × VCState :=
  if st.hasContract = false then (.ok false, [], st)
  else
    let events := [Event.remoteCreateProposal title description options duration]
    match env.send with
    | .error e => (.error e, events, st)
    | .ok _ =>
      match env.wait with
      | .error e => (.error e, events, st)
      | .ok r => (.ok (r.status == 1), events, st)

/-- VotingContract.revealResults (lines 285-302). -/
def revealResults (st : VCState) (env : WriteEnv) (proposalId : Int) :
    Except Err Bool × List Event × VCState :=
  if st.hasContract = false then (.ok false, [], st)
  else
    let events := [Event.remoteRevealResults proposalId]
    match env.send with
    | .error e => (.error e, events, st)
    | .ok _ =>
      match env.wait with
      | .error e => (.error e, events, st)
      | .ok r => (.ok (r.status == 1), events, st)

/-- VotingContract.authorizeVoter (lines 304-315). -/
def authorizeVoter (st : VCState) (env : WriteEnv) (voter : List Char) :
    Except Err Bool × List Event × VCState :=
  if st.hasContract = false then (.ok false, [], st)
  else
    let events := [Event.remoteAuthorizeVoter voter]
    match env.send with
    | .error e => (.error e, events, st)
    | .ok _ =>
      match env.wait with
      | .error e => (.error e, events, st)
      | .ok r => (.ok (r.status == 1), events, st)

/-- VotingContract.authorizeVoters (lines 317-328): one batched write. -/
def authorizeVoters (st : VCState) (env : WriteEnv) (voters : List (List Char)) :
    Except Err Bool × List Event × VCState :=
  if st.hasContract = false then (.ok false, [], st)
  else
    let events := [Event.remoteAuthorizeVoters voters]
    match env.send with
    | .error e => (.error e, events, st)
    | .ok _ =>
      match env.wait with
      | .error e => (.error e, events, st)
      | .ok r => (.ok (r.status == 1), events, st)

/-- The finality tail returns the state it was handed in every branch. -/
theorem castVoteFinish_state (st : VCState) (env : CastVoteEnv)
    (s : Except Err Unit) (ev : List Event) :
    (castVoteFinish st env s ev).2.2 = st := by
  unfold castVoteFinish
  cases s with
  | error e => rfl
  | ok u =>
    cases hw : env.wait with
    | error e => rfl
    | ok r => rfl

/-- The finality tail returns the trace it was handed in every branch. -/
theorem castVoteFinish_events (st : VCState) (env : CastVoteEnv)
    (s : Except Err Unit) (ev : List Event) :
    (castVoteFinish st env s ev).2.1 = ev := by
  unfold castVoteFinish
  cases s with
  | error e => rfl
  | ok u =>
    cases hw : env.wait with
    | error e => rfl
    | ok r => rfl

/-- A throw from the write that was to produce the tx is rethrown. -/
theorem castVoteFinish_send_error (st : VCState) (env : CastVoteEnv)
    (ev : List Event) (e : Err) :
    (castVoteFinish st env (.error e) ev).1 = .error e := rfl

/-- A throw from the finality wait is rethrown. -/
theorem castVoteFinish_wait_error (st : VCState) (env : CastVoteEnv)
    (ev : List Event) (e : Err) (hw : env.wait = .error e) :
    (castVoteFinish st env (.ok ()) ev).1 = .error e := by
  unfold castVoteFinish
  rw [hw]

/-- A received receipt is mapped to whether its status equals 1. -/
theorem castVoteFinish_wait_ok (st : VCState) (env : CastVoteEnv)
    (ev : List Event) (r : Receipt) (hw : env.wait = .ok r) :
    (castVoteFinish st env (.ok ()) ev).1 = .ok (r.status == 1) := by
  unfold castVoteFinish
  rw [hw]

/-- castVote leaves the client state unchanged in every branch. -/
theorem castVote_state (st : VCState) (env : CastVoteEnv) (pid oix : Int) :
    (castVote st env pid oix).2.2 = st := by
  rw [castVote]
  by_cases hc : st.hasContract = false
  · rw [if_pos hc]
  · rw [if_neg hc]
    by_cases hf : (st.isFHEVMEnabled && isInitialized st.fhevm) = true
    · rw [if_pos hf]
      cases hv : encryptVote st.fhevm 1 with
      | ok p0 =>
        obtain ⟨c, st2⟩ := p0
        cases hs : env.sendVote pid oix (toHexString c.data) (toHexString c.proofBytes) with
        | ok u => simp only [hs, castVoteFinish_state]
        | error e => simp only [hs, castVoteFinish_state]
      | error e => simp only [castVoteFinish_state]
    · rw [if_neg hf]
      exact castVoteFinish_state st env _ _

/-- The castVote trace takes one of four shapes: empty without a contract
handle; one remote write off the FHE branch; on the FHE branch the
encryptor call with value 1 followed by one remote write, or by two remote
writes when the first write threw and the inner catch retried.  Every
remote write carries the given proposal id and option index. -/
theorem castVote_trace_shapes (st : VCState) (env : CastVoteEnv) (pid oix : Int) :
    (st.hasContract = false ∧ (castVote st env pid oix).2.1 = []) ∨
    (st.hasContract = true ∧ (st.isFHEVMEnabled && isInitialized st.fhevm) = false ∧
      ∃ d p, (castVote st env pid oix).2.1 = [Event.remoteCastVote pid oix d p]) ∨
    (st.hasContract = true ∧ (st.isFHEVMEnabled && isInitialized st.fhevm) = true ∧
      ((∃ d p, (castVote st env pid oix).2.1 =
          [Event.encryptVoteCall 1, Event.remoteCastVote pid oix d p]) ∨
       (∃ d p d2 p2, (castVote st env pid oix).2.1 =
          [Event.encryptVoteCall 1, Event.remoteCastVote pid oix d p,
           Event.remoteCastVote pid oix d2 p2]))) := by
  cases hc : st.hasContract with
  | false =>
    left
    exact ⟨rfl, by rw [castVote, if_pos hc]⟩
  | true =>
    cases hf : (st.isFHEVMEnabled && isInitialized st.fhevm) with
    | false =>
      right
      left
      refine ⟨rfl, rfl, ?_⟩
      refine ⟨toHexString env.randCipher, toHexString env.randProof, ?_⟩
      simp [castVote, hc, hf, castVoteFinish_events]
    | true =>
      right
      right
      refine ⟨rfl, rfl, ?_⟩
      cases hv : encryptVote st.fhevm 1 with
      | ok p0 =>
        obtain ⟨c, st2⟩ := p0
        cases hs : env.sendVote pid oix (toHexString c.data) (toHexString c.proofBytes) with
        | ok u =>
          left
          refine ⟨toHexString c.data, toHexString c.proofBytes, ?_⟩
          simp [castVote, hc, hf, hv, hs, castVoteFinish_events]
        | error e =>
          right
          refine ⟨toHexString c.data, toHexString c.proofBytes,
            toHexString env.randCipher, toHexString env.randProof, ?_⟩
          simp [castVote, hc, hf, hv, hs, castVoteFinish_events]
      | error e =>
        left
        refine ⟨toHexString env.randCipher, toHexString env.randProof, ?_⟩
        simp [castVote, hc, hf, hv, castVoteFinish_events]

/-- Claim C6: every value handed to the encryptor during castVote is the
hardcoded constant 1, regardless of optionIndex; optionIndex travels to the
remote contract as a separate plaintext parameter alongside the two
hex-encoded arguments; and on the FHE branch the encryptor really is
called with 1. -/
theorem castVote_hardcodes_one (st : VCState) (env : CastVoteEnv) (pid oix : Int) :
    (∀ v, Event.encryptVoteCall v ∈ (castVote st env pid oix).2.1 → v = 1) ∧
    (∀ p o d q, Event.remoteCastVote p o d q ∈ (castVote st env pid oix).2.1 →
      p = pid ∧ o = oix) ∧
    (st.hasContract = true → (st.isFHEVMEnabled && isInitialized st.fhevm) = true →
      Event.encryptVoteCall 1 ∈ (castVote st env pid oix).2.1) := by
  rcases castVote_trace_shapes st env pid oix with
    ⟨hc, htr⟩ | ⟨hc, hf, d, p, htr⟩ | ⟨hc, hf, hsh⟩
  · refine ⟨?_, ?_, ?_⟩
    · intro v hv
      rw [htr] at hv
      exact absurd hv (List.not_mem_nil _)
    · intro p o d q hm
      rw [htr] at hm
      exact absurd hm (List.not_mem_nil _)
    · intro h _
      rw [hc] at h
      exact Bool.noConfusion h
  · refine ⟨?_, ?_, ?_⟩
    · intro v hv
      rw [htr] at hv
      exact Event.noConfusion (List.mem_singleton.mp hv)
    · intro p2 o2 d2 q2 hm
      rw [htr] at hm
      have h2 := List.mem_singleton.mp hm
      injection h2 with h3 h4 h5 h6
      exact ⟨h3, h4⟩
    · intro _ hfhe
      rw [hfhe] at hf
      exact Bool.noConfusion hf
  · rcases hsh with ⟨d, p, htr⟩ | ⟨d, p, d2, p2, htr⟩
    · refine ⟨?_, ?_, ?_⟩
      · intro v hv
        rw [htr] at hv
        rcases List.mem_cons.mp hv with h | h
        · injection h with h1
        · exact Event.noConfusion (List.mem_singleton.mp h)
      · intro p3 o3 d3 q3 hm
        rw [htr] at hm
        rcases List.mem_cons.mp hm with h | h
        · exact Event.noConfusion h
        · have h2 := List.mem_singleton.mp h
          injection h2 with h3 h4 h5 h6
          exact ⟨h3, h4⟩
      · intro _ _
        rw [htr]
        exact List.mem_cons_self _ _
    · refine ⟨?_, ?_, ?_⟩
      · intro v hv
        rw [htr] at hv
        rcases List.mem_cons.mp hv with h | h
        · injection h with h1
        · rcases List.mem_cons.mp h with h2 | h2
          · exact Event.noConfusion h2
          · exact Event.noConfusion (List.mem_singleton.mp h2)
      · intro p3 o3 d3 q3 hm
        rw [htr] at hm
        rcases List.mem_cons.mp hm with h | h
        · exact Event.noConfusion h
        · rcases List.mem_cons.mp h with h2 | h2
          · injection h2 with h3 h4 h5 h6
            exact ⟨h3, h4⟩
          · have h3 := List.mem_singleton.mp h2
            injection h3 with h4 h5 h6 h7
            exact ⟨h4, h5⟩
      · intro _ _
        rw [htr]
        exact List.mem_cons_self _ _

/-- Witness for C6: a live contract on the FHE branch with a backend whose
encrypt32 throws; the trace still records the encryptor called with 1. -/
theorem castVote_hardcodes_one_witness :
    Event.encryptVoteCall 1 ∈
      (castVote ⟨true, true, true, ⟨some (fun _ => none), true, none⟩⟩
        ⟨fun _ _ _ _ => .ok (), .ok ⟨1⟩, [], []⟩ 3 2).2.1 :=
  (castVote_hardcodes_one ⟨true, true, true, ⟨some (fun _ => none), true, none⟩⟩
    ⟨fun _ _ _ _ => .ok (), .ok ⟨1⟩, [], []⟩ 3 2).2.2 rfl rfl

/-- Whether an event is the remote castVote write. -/
def isRemoteCastVote (ev : Event) : Bool :=
  match ev with
  | Event.remoteCastVote _ _ _ _ => true
  | _ => false

/-- Counterexample to C7 as stated: at this concrete input the first remote
write throws a transport error, yet castVote neither surfaces that cause
nor stops — the inner catch of contract.ts lines 257-263 issues a second
remote write (an automatic retry, so the trace counts two remote writes)
and the call returns committed. -/
theorem castVote_retry_counterexample :
    ((castVote ⟨true, true, true, ⟨some (fun _ => none), true, none⟩⟩
        ⟨fun _ _ d _ => if d.length = 2 then .ok () else .error "transport down",
         .ok ⟨1⟩, [], []⟩ 3 2).2.1.countP isRemoteCastVote = 2) ∧
    (castVote ⟨true, true, true, ⟨some (fun _ => none), true, none⟩⟩
        ⟨fun _ _ d _ => if d.length = 2 then .ok () else .error "transport down",
         .ok ⟨1⟩, [], []⟩ 3 2).1 = .ok true := by
  constructor <;> rfl

/-- Claim C7 (amended): castVote awaits finality on the obtained tx and
returns true exactly when the receipt status equals 1, any other status
yielding false; the state is never mutated; a throw from the wait, or from
the single write issued off the FHE branch, is rethrown with its original
cause and no retry happens; but on the FHE branch a throw from the first
remote write is caught with its cause discarded, and one second remote
write with the random fallback bytes is automatically issued — only that
second write's own throw is surfaced. -/
theorem castVote_finality_amended (st : VCState) (env : CastVoteEnv) (pid oix : Int)
    (hc : st.hasContract = true) :
    (castVote st env pid oix).2.2 = st ∧
    ((st.isFHEVMEnabled && isInitialized st.fhevm) = false →
      ((castVote st env pid oix).2.1.countP isRemoteCastVote = 1 ∧
       (∀ e, env.sendVote pid oix (toHexString env.randCipher)
          (toHexString env.randProof) = .error e →
          (castVote st env pid oix).1 = .error e) ∧
       (∀ r, env.sendVote pid oix (toHexString env.randCipher)
          (toHexString env.randProof) = .ok () → env.wait = .ok r →
          (castVote st env pid oix).1 = .ok (r.status == 1)) ∧
       (∀ e, env.sendVote pid oix (toHexString env.randCipher)
          (toHexString env.randProof) = .ok () → env.wait = .error e →
          (castVote st env pid oix).1 = .error e))) ∧
    ((st.isFHEVMEnabled && isInitialized st.fhevm) = true →
      ∀ c st2, encryptVote st.fhevm 1 = .ok (c, st2) →
      ((env.sendVote pid oix (toHexString c.data) (toHexString c.proofBytes) = .ok () →
        ((castVote st env pid oix).2.1.countP isRemoteCastVote = 1 ∧
         (∀ r, env.wait = .ok r → (castVote st env pid oix).1 = .ok (r.status == 1)) ∧
         (∀ e, env.wait = .error e → (castVote st env pid oix).1 = .error e))) ∧
       (∀ e1, env.sendVote pid oix (toHexString c.data) (toHexString c.proofBytes) =
          .error e1 →
        ((castVote st env pid oix).2.1.countP isRemoteCastVote = 2 ∧
         (∀ e2, env.sendVote pid oix (toHexString env.randCipher)
            (toHexString env.randProof) = .error e2 →
            (castVote st env pid oix).1 = .error e2) ∧
         (∀ r, env.sendVote pid oix (toHexString env.randCipher)
            (toHexString env.randProof) = .ok () → env.wait = .ok r →
            (castVote st env pid oix).1 = .ok (r.status == 1)) ∧
         (∀ e, env.sendVote pid oix (toHexString env.randCipher)
            (toHexString env.randProof) = .ok () → env.wait = .error e →
            (castVote st env pid oix).1 = .error e))))) := by
  refine ⟨castVote_state st env pid oix, ?_, ?_⟩
  · intro hf
    have hred : castVote st env pid oix =
        castVoteFinish st env
          (env.sendVote pid oix (toHexString env.randCipher) (toHexString env.randProof))
          [Event.remoteCastVote pid oix (toHexString env.randCipher)
            (toHexString env.randProof)] := by
      simp [castVote, hc, hf]
    refine ⟨?_, ?_, ?_, ?_⟩
    · rw [hred, castVoteFinish_events]
      rfl
    · intro e he
      rw [hred, he]
      exact castVoteFinish_send_error st env _ e
    · intro r hs hw
      rw [hred, hs]
      exact castVoteFinish_wait_ok st env _ r hw
    · intro e hs hw
      rw [hred, hs]
      exact castVoteFinish_wait_error st env _ e hw
  · intro hf c st2 hv
    constructor
    · intro hs
      have hred : castVote st env pid oix =
          castVoteFinish st env (.ok ())
            [Event.encryptVoteCall 1,
             Event.remoteCastVote pid oix (toHexString c.data)
               (toHexString c.proofBytes)] := by
        simp [castVote, hc, hf, hv, hs]
      refine ⟨?_, ?_, ?_⟩
      · rw [hred, castVoteFinish_events]
        rfl
      · intro r hw
        rw [hred]
        exact castVoteFinish_wait_ok st env _ r hw
      · intro e hw
        rw [hred]
        exact castVoteFinish_wait_error st env _ e hw
    · intro e1 hs
      have hred : castVote st env pid oix =
          castVoteFinish st env
            (env.sendVote pid oix (toHexString env.randCipher) (toHexString env.randProof))
            [Event.encryptVoteCall 1,
             Event.remoteCastVote pid oix (toHexString c.data) (toHexString c.proofBytes),
             Event.remoteCastVote pid oix (toHexString env.randCipher)
               (toHexString env.randProof)] := by
        simp [castVote, hc, hf, hv, hs]
      refine ⟨?_, ?_, ?_, ?_⟩
      · rw [hred, castVoteFinish_events]
        rfl
      · intro e2 hs2
        rw [hred, hs2]
        exact castVoteFinish_send_error st env _ e2
      · intro r hs2 hw
        rw [hred, hs2]
        exact castVoteFinish_wait_ok st env _ r hw
      · intro e hs2 hw
        rw [hred, hs2]
        exact castVoteFinish_wait_error st env _ e hw

/-- Witness for C7 (amended) at the concrete retry input: the first write
throws, the fallback write succeeds, the receipt carries status 1 — two
remote writes in the trace and a committed result. -/
theorem castVote_finality_amended_witness :
    ((castVote ⟨true, true, true, ⟨some (fun _ => none), true, none⟩⟩
        ⟨fun _ _ d _ => if d.length = 2 then .ok () else .error "transport down",
         .ok ⟨1⟩, [], []⟩ 3 2).2.1.countP isRemoteCastVote = 2) ∧
    (castVote ⟨true, true, true, ⟨some (fun _ => none), true, none⟩⟩
        ⟨fun _ _ d _ => if d.length = 2 then .ok () else .error "transport down",
         .ok ⟨1⟩, [], []⟩ 3 2).1 = .ok ((1 : Int) == 1) := by
  have h := ((castVote_finality_amended
      ⟨true, true, true, ⟨some (fun _ => none), true, none⟩⟩
      ⟨fun _ _ d _ => if d.length = 2 then .ok () else .error "transport down",
       .ok ⟨1⟩, [], []⟩ 3 2 rfl).2.2 rfl
    ⟨(simulateEncryption 1).1, (simulateEncryption 1).2⟩
    ⟨some (fun _ => none), true, none⟩ rfl).2 "transport down" (by rfl)
  exact ⟨h.1, h.2.2.1 ⟨1⟩ (by rfl) rfl⟩

/-- Claim C10: with no contract connection every write operation returns
false immediately, raises nothing, and issues no remote call. -/
theorem writes_null_contract (st : VCState) (hc : st.hasContract = false)
    (cenv : CastVoteEnv) (wenv : WriteEnv) (pid oix duration : Int)
    (title description voter : List Char) (options voters : List (List Char)) :
    castVote st cenv pid oix = (.ok false, [], st) ∧
    createProposal st wenv title description options duration = (.ok false, [], st) ∧
    revealResults st wenv pid = (.ok false, [], st) ∧
    authorizeVoter st wenv voter = (.ok false, [], st) ∧
    authorizeVoters st wenv voters = (.ok false, [], st) := by
  refine ⟨?_, ?_, ?_, ?_, ?_⟩ <;>
    simp [castVote, createProposal, revealResults, authorizeVoter, authorizeVoters, hc]

/-- Witness for C10 at a concrete disconnected state. -/
theorem writes_null_contract_witness :
    castVote ⟨false, false, false, ⟨none, false, none⟩⟩
        ⟨fun _ _ _ _ => .ok (), .ok ⟨1⟩, [], []⟩ 0 0 =
      (.ok false, [], ⟨false, false, false, ⟨none, false, none⟩⟩) ∧
    authorizeVoters ⟨false, false, false, ⟨none, false, none⟩⟩ ⟨.ok (), .ok ⟨1⟩⟩ [] =
      (.ok false, [], ⟨false, false, false, ⟨none, false, none⟩⟩) := by
  have h := writes_null_contract ⟨false, false, false, ⟨none, false, none⟩⟩ rfl
    ⟨fun _ _ _ _ => .ok (), .ok ⟨1⟩, [], []⟩ ⟨.ok (), .ok ⟨1⟩⟩ 0 0 0 [] [] [] [] []
  exact ⟨h.1, h.2.2.2.2⟩

/-! ## VotingContract.getUserProfile (src/src/lib/contract.ts lines 131-167) -/

/-- The remote reads getUserProfile performs, as oracle inputs; each may
throw. -/
structure ProfileEnv where
  signerAddr : Except Err (List Char)
  isAuthorizedVoter : Except Err Bool
  isAdmin : Except Err Bool
  proposalCount : Except Err Nat
  hasVoted : Nat → Except Err Bool

/-- The derived profile record of lines 157-162. -/
structure UserProfile where
  address : List Char
  isAuthorized : Bool
  isAdmin : Bool
  votedProposals : List Nat

/-- The scan of lines 146-155: for each proposal id below the count, a
throwing hasVoted check is caught individually and treated as not voted,
and the loop continues. -/
def votedScan (env : ProfileEnv) (count : Nat) : List Nat :=
  (List.range count).filter (fun i =>
    match env.hasVoted i with
    | .ok b => b
    | .error _ => false)

/-- VotingContract.getUserProfile (lines 131-167): null when the signer or
the contract handle is null (line 132); any throw from the address,
authorization, admin or count reads lands in the outer catch and yields
null (lines 163-166); otherwise the full profile. -/
def getUserProfile (st : VCState) (env : ProfileEnv) : Option UserProfile :=
  if st.hasSigner = false ∨ st.hasContract = false then none
  else
    match env.signerAddr, env.isAuthorizedVoter, env.isAdmin, env.proposalCount with
    | .ok addr, .ok auth, .ok adm, .ok count =>
      some ⟨addr, auth, adm, votedScan env count⟩
    | _, _, _, _ => none

/-- Claim C8: getUserProfile returns null rather than raising when no
active session exists; with a session and successful top-level reads it
returns a complete profile whose votedProposals holds exactly the proposals
below the count whose hasVoted check succeeded with true — a failing check
is excluded while the scan continues over the rest. -/
theorem getUserProfile_partial_failure (st : VCState) (env : ProfileEnv) :
    (st.hasSigner = false ∨ st.hasContract = false → getUserProfile st env = none) ∧
    (∀ addr auth adm count,
      st.hasSigner = true → st.hasContract = true →
      env.signerAddr = .ok addr → env.isAuthorizedVoter = .ok auth →
      env.isAdmin = .ok adm → env.proposalCount = .ok count →
      getUserProfile st env = some ⟨addr, auth, adm, votedScan env count⟩ ∧
      (∀ i, i ∈ votedScan env count ↔ (i < count ∧ env.hasVoted i = .ok true))) := by
  constructor
  · intro h
    rw [getUserProfile, if_pos h]
  · intro addr auth adm count hs hcon ha hauth hadm hcount
    have hno : ¬ (st.hasSigner = false ∨ st.hasContract = false) := by
      rw [hs, hcon]
      rintro (h | h) <;> exact Bool.noConfusion h
    constructor
    · rw [getUserProfile, if_neg hno, ha, hauth, hadm, hcount]
    · intro i
      constructor
      · intro hi
        have h2 := List.mem_filter.mp hi
        refine ⟨List.mem_range.mp h2.1, ?_⟩
        rcases hv : env.hasVoted i with e | b
        · rw [hv] at h2
          exact absurd h2.2 (by simp)
        · rw [hv] at h2
          cases b
          · exact absurd h2.2 (by simp)
          · rfl
      · rintro ⟨hlt, hv⟩
        refine List.mem_filter.mpr ⟨List.mem_range.mpr hlt, ?_⟩
        rw [hv]

/-- Witness for C8: three proposals where the middle vote check throws;
the profile is complete and excludes exactly that proposal. -/
theorem getUserProfile_partial_failure_witness :
    getUserProfile ⟨true, true, false, ⟨none, false, none⟩⟩
        ⟨.ok ['a'], .ok true, .ok false, .ok 3,
         fun i => if i = 1 then .error "rpc down" else .ok true⟩ =
      some ⟨['a'], true, false,
        votedScan ⟨.ok ['a'], .ok true, .ok false, .ok 3,
          fun i => if i = 1 then .error "rpc down" else .ok true⟩ 3⟩ ∧
    ¬ 1 ∈ votedScan ⟨.ok ['a'], .ok true, .ok false, .ok 3,
        fun i => if i = 1 then .error "rpc down" else .ok true⟩ 3 ∧
    2 ∈ votedScan ⟨.ok ['a'], .ok true, .ok false, .ok 3,
        fun i => if i = 1 then .error "rpc down" else .ok true⟩ 3 := by
  have h := (getUserProfile_partial_failure ⟨true, true, false, ⟨none, false, none⟩⟩
    ⟨.ok ['a'], .ok true, .ok false, .ok 3,
     fun i => if i = 1 then .error "rpc down" else .ok true⟩).2
    ['a'] true false 3 rfl rfl rfl rfl rfl rfl
  refine ⟨h.1, ?_, ?_⟩
  · intro hmem
    have h2 := (h.2 1).mp hmem
    simp at h2
  · exact (h.2 2).mpr ⟨by omega, rfl⟩

/-! ## VotingContract.getActiveProposals (src/src/lib/contract.ts lines 169-210) -/

/-- One proposal tuple as read from the remote contract (the ABI tuple of
line 11), with times in seconds. -/
structure RawProposal where
  id : Int
  title : List Char
  description : List Char
  options : List (List Char)
  startTime : Int
  endTime : Int
  totalVotes : Int
  creator : List Char
  active : Bool
  resultsRevealed : Bool
  revealedResults : List Int

/-- One converted proposal record as returned to the UI (lines 189-202),
with times in milliseconds. -/
structure Proposal where
  id : Int
  title : List Char
  description : List Char
  options : List (List Char)
  startTime : Int
  endTime : Int
  totalVotes : Int
  creator : List Char
  active : Bool
  resultsRevealed : Bool
  revealedResults : List Int
  hasVoted : Bool

/-- The remote reads getActiveProposals performs: the proposals fetch, the
nullable signer address (none models a null signer; an inner error a throw
from getAddress), and the per-proposal hasVoted check. -/
structure ProposalsEnv where
  fetchProposals : Except Err (List RawProposal)
  signerAddr : Option (Except Err (List Char))
  hasVoted : Int → List Char → Except Err Bool

/-- The per-proposal conversion of lines 178-202: multiply both times by
1000 (seconds to milliseconds), copy the other fields, and resolve
hasVoted with a per-proposal catch defaulting to false. -/
def convertProposal (env : ProposalsEnv) (userAddr : Option (List Char))
    (raw : RawProposal) : Proposal :=
  let hv := match userAddr with
    | none => false
    | some addr =>
      match env.hasVoted raw.id addr with
      | .ok b => b
      | .error _ => false
  ⟨raw.id, raw.title, raw.description, raw.options,
   raw.startTime * 1000, raw.endTime * 1000, raw.totalVotes,
   raw.creator, raw.active, raw.resultsRevealed, raw.revealedResults, hv⟩

/-- VotingContract.getActiveProposals (lines 169-210): the empty list when
the contract handle is null (line 170) or when the fetch or the signer
address read throws (outer catch, lines 206-209); otherwise the converted
records in order. -/
def getActiveProposals (st : VCState) (env : ProposalsEnv) : List Proposal :=
  if st.hasContract = false then []
  else
    match env.fetchProposals with
    | .error _ => []
    | .ok raws =>
      match env.signerAddr with
      | some (.error _) => []
      | some (.ok addr) => raws.map (convertProposal env (some addr))
      | none => raws.map (convertProposal env none)

/-- Claim C9: every record getActiveProposals returns carries startTime and
endTime equal to exactly 1000 times the values read from the remote
contract, and a remote read failure yields the empty list rather than a
raise. -/
theorem getActiveProposals_times (st : VCState) (env : ProposalsEnv) :
    ((∃ e, env.fetchProposals = .error e) → getActiveProposals st env = []) ∧
    (∀ raw u, (convertProposal env u raw).startTime = 1000 * raw.startTime ∧
              (convertProposal env u raw).endTime = 1000 * raw.endTime) ∧
    (∀ raws addr, st.hasContract = true → env.fetchProposals = .ok raws →
      env.signerAddr = some (.ok addr) →
      getActiveProposals st env = raws.map (convertProposal env (some addr))) ∧
    (∀ raws, st.hasContract = true → env.fetchProposals = .ok raws →
      env.signerAddr = none →
      getActiveProposals st env = raws.map (convertProposal env none)) := by
  refine ⟨?_, ?_, ?_, ?_⟩
  · rintro ⟨e, he⟩
    rw [getActiveProposals]
    by_cases hc : st.hasContract = false
    · rw [if_pos hc]
    · rw [if_neg hc, he]
  · intro raw u
    constructor <;> simp [convertProposal, Int.mul_comm]
  · intro raws addr hc hf hs
    have hno : ¬ st.hasContract = false := by
      rw [hc]
      exact fun h => Bool.noConfusion h
    rw [getActiveProposals, if_neg hno, hf, hs]
  · intro raws hc hf hs
    have hno : ¬ st.hasContract = false := by
      rw [hc]
      exact fun h => Bool.noConfusion h
    rw [getActiveProposals, if_neg hno, hf, hs]

/-- Witness for C9 at one concrete proposal with startTime 17, endTime 99,
no signer, and separately a failing fetch. -/
theorem getActiveProposals_times_witness :
    getActiveProposals ⟨true, false, false, ⟨none, false, none⟩⟩
        ⟨.ok [⟨0, [], [], [], 17, 99, 0, [], true, false, []⟩], none,
         fun _ _ => .ok false⟩ =
      [convertProposal
        ⟨.ok [⟨0, [], [], [], 17, 99, 0, [], true, false, []⟩], none,
         fun _ _ => .ok false⟩ none ⟨0, [], [], [], 17, 99, 0, [], true, false, []⟩] ∧
    (convertProposal
        ⟨.ok [⟨0, [], [], [], 17, 99, 0, [], true, false, []⟩], none,
         fun _ _ => .ok false⟩ none
        ⟨0, [], [], [], 17, 99, 0, [], true, false, []⟩).startTime = 1000 * 17 ∧
    getActiveProposals ⟨true, false, false, ⟨none, false, none⟩⟩
        ⟨.error "rpc down", none, fun _ _ => .ok false⟩ = [] := by
  refine ⟨?_, ?_, ?_⟩
  · exact (getActiveProposals_times ⟨true, false, false, ⟨none, false, none⟩⟩
      ⟨.ok [⟨0, [], [], [], 17, 99, 0, [], true, false, []⟩], none,
       fun _ _ => .ok false⟩).2.2.2 [⟨0, [], [], [], 17, 99, 0, [], true, false, []⟩]
      rfl rfl rfl
  · exact ((getActiveProposals_times ⟨true, false, false, ⟨none, false, none⟩⟩
      ⟨.ok [⟨0, [], [], [], 17, 99, 0, [], true, false, []⟩], none,
       fun _ _ => .ok false⟩).2.1 ⟨0, [], [], [], 17, 99, 0, [], true, false, []⟩ none).1
  · exact (getActiveProposals_times ⟨true, false, false, ⟨none, false, none⟩⟩
      ⟨.error "rpc down", none, fun _ _ => .ok false⟩).1 ⟨"rpc down", rfl⟩

end FHEVoting
